import Mathlib

/-!
Verification of the document-identity and search-query subsystem of an
annotation service, against its natural-language specification.

Part I embeds `memex/search/core.py` (the search orchestrator): the
module-level mutable `annotation_ids_map` dictionary is modelled as an
explicit global state threaded through every call, and the Elasticsearch
backend as an oracle function from a query body to a response.  Scores
(Elasticsearch `_score` floats) are opaque payloads here, modelled as `Int`;
no claim performs arithmetic on them.

Part II embeds `h/accounts/services.py` (`UserService` with its per-session
cache invalidated on commit/rollback).

Part III models the document store (`memex/models/document.py`): that module
is not part of the sources — only its test-suite is — so its operations are
modelled from the specification's own description, as their doc comments
state.
-/

set_option maxRecDepth 20000

/-- Log messages emitted by the search orchestrator.  `core.py` has exactly
one `log.warn` call, fired when the reply page is shorter than the reported
reply total. -/
inductive LogMsg where
  | replyTruncationWarning
deriving DecidableEq, Repr

/-- Association list standing for the Python dict mapping annotation id to
relevance score (`annotation_ids_map` in `core.py`). -/
abbrev ScoreMap := List (String × Int)

/-- Python dict assignment `m[k] = v`: replace the value in place when the
key is present, otherwise append the binding. -/
def ScoreMap.insert : ScoreMap → String → Int → ScoreMap
  | [], k, v => [(k, v)]
  | (k', v') :: rest, k, v =>
      if k' = k then (k, v) :: rest
      else (k', v') :: ScoreMap.insert rest k v

/-- Python dict read `m.get(k)`: first binding of the key, if any. -/
def ScoreMap.get? : ScoreMap → String → Option Int
  | [], _ => none
  | (k', v') :: rest, k => if k' = k then some v' else ScoreMap.get? rest k

/-- Filter components of `memex.search.query` appended by
`default_querybuilder` and by `Search.search_annotations`.  Their internal
query-rendering is opaque to the orchestrator; identity is what matters. -/
inductive QueryFilter where
  | AuthFilter
  | UriFilter
  | GroupFilter
  | UserFilter
  | TopLevelAnnotationsFilter
  | extFilter (n : Nat)
deriving DecidableEq, Repr

/-- Matcher components of `memex.search.query`.  `RepliesMatcher ids`
matches only replies whose parent is among `ids`. -/
inductive Matcher where
  | AnyMatcher
  | TagsMatcher
  | RepliesMatcher (ids : List String)
  | extMatcher (n : Nat)
deriving DecidableEq, Repr

/-- Aggregation component: a stable `key` plus `parse_result` translating the
backend's raw aggregation payload (opaque, modelled as `Int`) into a domain
value (also modelled as `Int`). -/
structure Aggregation where
  key : String
  parse_result : Int → Int

/-- Search parameters (`params`), a dict; the orchestrator itself only ever
passes `{}` through or builds `{'limit': 200}`. -/
abbrev Params := List (String × Nat)

/-- Modelled from the spec: `query.Builder` (module `memex.search.query` is
not among the sources).  Per spec section 4.3 it accumulates an ordered list
of filters, matchers and aggregations, and `build(params)` renders them into
a structured query-request body. -/
structure Builder where
  filters : List QueryFilter
  matchers : List Matcher
  aggregations : List Aggregation

/-- Modelled from the spec: `Builder.append_filter` appends to the ordered
filter list. -/
def Builder.append_filter (b : Builder) (f : QueryFilter) : Builder :=
  { b with filters := b.filters ++ [f] }

/-- Modelled from the spec: `Builder.append_matcher` appends to the ordered
matcher list. -/
def Builder.append_matcher (b : Builder) (m : Matcher) : Builder :=
  { b with matchers := b.matchers ++ [m] }

/-- Modelled from the spec: `Builder.append_aggregation` appends to the
ordered aggregation list. -/
def Builder.append_aggregation (b : Builder) (a : Aggregation) : Builder :=
  { b with aggregations := b.aggregations ++ [a] }

/-- Structured query-request body produced by `Builder.build`: the appended
components plus the caller's params.  Aggregations appear through their
keys. -/
structure Body where
  filters : List QueryFilter
  matchers : List Matcher
  aggregationKeys : List String
  params : Params
deriving DecidableEq

/-- Modelled from the spec: `Builder.build(params)` renders the accumulated
components and the params into the request body. -/
def Builder.build (b : Builder) (params : Params) : Body :=
  ⟨b.filters, b.matchers, b.aggregations.map (fun a => a.key), params⟩

/-- Process-wide mutable state of `memex/search/core.py`: the module-level
`annotation_ids_map` dict, the messages logged so far, and (as
instrumentation) the list of query bodies sent to the search backend. -/
structure GState where
  annotation_ids_map : ScoreMap
  log : List LogMsg
  backendCalls : List Body
deriving DecidableEq

/-- Reference to a Python dict object.  The only dict a `SearchResult` ever
stores in its `annotation_ids_map` field is the module-level global, so the
heap has a single cell. -/
inductive MapRef where
  | globalMap
deriving DecidableEq, Repr

/-- Dereference a dict pointer in the current global state. -/
def MapRef.deref (g : GState) : MapRef → ScoreMap
  | .globalMap => g.annotation_ids_map

/-- One hit of `response['hits']['hits']`: its `_id` and `_score`. -/
structure Hit where
  _id : String
  _score : Int
deriving DecidableEq, Repr

/-- Backend search response: `hits.total`, `hits.hits`, and the optional
`aggregations` object (a dict keyed by aggregation name). -/
structure SearchResponse where
  total : Nat
  hits : List Hit
  aggregations : Option (List (String × Int))

/-- Search backend boundary (`es.conn.search`): an oracle from the query
body to a response.  Index name, doc type and `_source=False` are fixed at
every call site and carry no information. -/
def Backend := Body → SearchResponse

/-- Request object as the orchestrator sees it: the registry's extra
filter/matcher factories, already applied to the request. -/
structure Request where
  registry_filters : List QueryFilter
  registry_matchers : List Matcher

/-- Embedding of `default_querybuilder`: the four built-in filters, the two
built-in matchers, then the registry extras, in source order. -/
def default_querybuilder (r : Request) : Builder :=
  { filters := [QueryFilter.AuthFilter, QueryFilter.UriFilter, QueryFilter.GroupFilter,
                QueryFilter.UserFilter] ++ r.registry_filters,
    matchers := [Matcher.AnyMatcher, Matcher.TagsMatcher] ++ r.registry_matchers,
    aggregations := [] }

/-- Mutable attributes of a `Search` object: the flag and the two builders
(`self.builder`, `self.reply_builder`). -/
structure Search where
  separate_replies : Bool
  builder : Builder
  reply_builder : Builder

/-- Embedding of `Search.__init__`. -/
def Search.init (r : Request) (separate_replies : Bool) : Search :=
  { separate_replies := separate_replies,
    builder := default_querybuilder r,
    reply_builder := default_querybuilder r }

/-- Embedding of `Search.append_filter`: mirrored to both builders. -/
def Search.append_filter (s : Search) (f : QueryFilter) : Search :=
  { s with builder := s.builder.append_filter f,
           reply_builder := s.reply_builder.append_filter f }

/-- Embedding of `Search.append_matcher`: mirrored to both builders. -/
def Search.append_matcher (s : Search) (m : Matcher) : Search :=
  { s with builder := s.builder.append_matcher m,
           reply_builder := s.reply_builder.append_matcher m }

/-- Embedding of `Search.append_aggregation`: annotation builder only. -/
def Search.append_aggregation (s : Search) (a : Aggregation) : Search :=
  { s with builder := s.builder.append_aggregation a }

/-- Loop `for itemvar in response['hits']['hits']:
annotation_ids_map[itemvar['_id']] = itemvar['_score']` accumulating into the
module-level dict. -/
def recordHits (m : ScoreMap) : List Hit → ScoreMap
  | [] => m
  | h :: rest => recordHits (m.insert h._id h._score) rest

/-- Inner dispatch of `Search._parse_aggregation_results`: first appended
aggregation component whose key equals the bucket name. -/
def findAgg (comps : List Aggregation) (key : String) : Option Aggregation :=
  comps.find? (fun a => a.key == key)

/-- Loop of `Search._parse_aggregation_results` over the response's
aggregation buckets: a bucket whose name matches an appended component is
parsed by that component; others are dropped. -/
def parseAggLoop (comps : List Aggregation) : List (String × Int) → List (String × Int)
  | [] => []
  | (key, raw) :: rest =>
      match findAgg comps key with
      | some a => (key, a.parse_result raw) :: parseAggLoop comps rest
      | none => parseAggLoop comps rest

/-- Embedding of `Search._parse_aggregation_results`: a missing or empty
`aggregations` object yields the empty dict. -/
def parseAggregationResults (comps : List Aggregation) :
    Option (List (String × Int)) → List (String × Int)
  | none => []
  | some buckets => parseAggLoop comps buckets

/-- Tuple returned by `Search.search_annotations`. -/
structure AnnSearchOut where
  total : Nat
  annotation_ids : List String
  annotation_ids_map : MapRef
  aggregations : List (String × Int)
deriving DecidableEq

/-- Embedding of `Search.search_annotations`: append the top-level filter
when separating replies, query the backend, record every hit's score into
the module-level dict, parse aggregations, and return the global dict itself
as the third component. -/
def Search.search_annotations (s : Search) (be : Backend) (params : Params)
    (g : GState) : AnnSearchOut × Search × GState :=
  let builder := if s.separate_replies
    then s.builder.append_filter QueryFilter.TopLevelAnnotationsFilter
    else s.builder
  let s1 : Search := { s with builder := builder }
  let body := builder.build params
  let response := be body
  let g1 : GState := { g with
    annotation_ids_map := recordHits g.annotation_ids_map response.hits,
    backendCalls := g.backendCalls ++ [body] }
  let out : AnnSearchOut :=
    { total := response.total,
      annotation_ids := response.hits.map (fun h => h._id),
      annotation_ids_map := MapRef.globalMap,
      aggregations := parseAggregationResults s1.builder.aggregations
        response.aggregations }
  (out, s1, g1)

/-- Embedding of `Search.search_replies`: early-return `[]` unless
separating replies; otherwise append a `RepliesMatcher` over the annotation
ids, query the backend with `{'limit': 200}`, log a warning when the page is
shorter than the reported total, and return the page's ids. -/
def Search.search_replies (s : Search) (be : Backend)
    (annotation_ids : List String) (g : GState) :
    List String × Search × GState :=
  if s.separate_replies = false then ([], s, g)
  else
    let reply_builder := s.reply_builder.append_matcher
      (Matcher.RepliesMatcher annotation_ids)
    let s1 : Search := { s with reply_builder := reply_builder }
    let body := reply_builder.build [("limit", 200)]
    let response := be body
    let g1 : GState := { g with backendCalls := g.backendCalls ++ [body] }
    let g2 : GState :=
      if response.hits.length < response.total
      then { g1 with log := g1.log ++ [LogMsg.replyTruncationWarning] }
      else g1
    (response.hits.map (fun h => h._id), s1, g2)

/-- Value returned by `Search.run` (the `SearchResult` namedtuple).  Its
`annotation_ids_map` field holds a reference to a dict object, exactly as the
Python namedtuple stores a pointer to the module-level dict. -/
structure SearchResult where
  total : Nat
  annotation_ids : List String
  annotation_ids_map : MapRef
  reply_ids : List String
  aggregations : List (String × Int)
deriving DecidableEq

/-- Embedding of `Search.run`: annotation phase, then reply phase, then
bundle the five components. -/
def Search.run (s : Search) (be : Backend) (params : Params) (g : GState) :
    SearchResult × Search × GState :=
  let (a, s1, g1) := s.search_annotations be params g
  let (reply_ids, s2, g2) := s1.search_replies be a.annotation_ids g1
  (⟨a.total, a.annotation_ids, a.annotation_ids_map, reply_ids,
    a.aggregations⟩, s2, g2)

/-- Initial global state: empty module-level dict, nothing logged. -/
def GState.empty : GState := ⟨[], [], []⟩

/-- Concrete backend for the C1 scenario: the reply query (recognised by its
`{'limit': 200}` params) reports 250 total hits but returns a 200-hit page;
every other query returns 3 annotation hits with total 3. -/
def scenarioReplyHits : List Hit :=
  (List.range 200).map (fun i => ⟨"r" ++ toString i, 0⟩)

def scenarioBackend : Backend := fun body =>
  if body.params = [("limit", 200)]
  then ⟨250, scenarioReplyHits, none⟩
  else ⟨3, [⟨"a1", 7⟩, ⟨"a2", 5⟩, ⟨"a3", 2⟩], none⟩

def scenarioSearch : Search := Search.init ⟨[], []⟩ true

/-- C1: `run({})` with `separate_replies=True` against a backend returning 3
annotation hits and a truncated 200-of-250 reply page yields `total=3`, the
3 annotation ids in backend order, exactly 200 reply ids, and logs the
truncation warning. -/
theorem run_separate_replies_scenario :
    (scenarioSearch.run scenarioBackend [] GState.empty).1.total = 3
      ∧ (scenarioSearch.run scenarioBackend [] GState.empty).1.annotation_ids
        = ["a1", "a2", "a3"]
      ∧ (scenarioSearch.run scenarioBackend [] GState.empty).1.reply_ids
        = scenarioReplyHits.map (fun h => h._id)
      ∧ (scenarioSearch.run scenarioBackend []
          GState.empty).1.reply_ids.length = 200
      ∧ (scenarioSearch.run scenarioBackend [] GState.empty).2.2.log
        = [LogMsg.replyTruncationWarning] := by
  refine ⟨rfl, rfl, rfl, rfl, rfl⟩

/-- Inserting a binding for one key leaves lookups of any other key
unchanged. -/
theorem ScoreMap.get?_insert_ne (m : ScoreMap) (kIns k : String) (v : Int)
    (h : kIns ≠ k) : (m.insert kIns v).get? k = m.get? k := by
  induction m with
  | nil => simp [ScoreMap.insert, ScoreMap.get?, h]
  | cons hd tl ih =>
    obtain ⟨k0, v0⟩ := hd
    by_cases hk : k0 = kIns
    · subst hk
      simp [ScoreMap.insert, ScoreMap.get?, h]
    · simp [ScoreMap.insert, ScoreMap.get?, hk, ih]

/-- Recording a batch of hits leaves lookups of keys outside the batch
unchanged. -/
theorem recordHits_get?_of_not_mem (hits : List Hit) (m : ScoreMap)
    (k : String) (h : k ∉ hits.map (fun x => x._id)) :
    (recordHits m hits).get? k = m.get? k := by
  induction hits generalizing m with
  | nil => rfl
  | cons hd tl ih =>
    simp only [List.map_cons, List.mem_cons, not_or] at h
    rw [recordHits, ih _ h.2, ScoreMap.get?_insert_ne]
    exact fun hx => h.1 hx.symm

/-- C2: the score map is process-wide, not call-local.  After two successive
`search_annotations` calls — possibly on distinct `Search` instances and
backends — the map returned by the second call is (a reference to) the
shared global dict, and it still contains any entry recorded by the first
call whose key is absent from the second call's hits. -/
theorem search_annotations_global_map_shared
    (s1 s2 : Search) (be1 be2 : Backend) (p1 p2 : Params) (g0 : GState)
    (k : String) (v : Int)
    (h1 : ((s1.search_annotations be1 p1 g0).2.2).annotation_ids_map.get? k
      = some v)
    (h2 : k ∉ ((s2.search_annotations be2 p2
      ((s1.search_annotations be1 p1 g0).2.2)).1).annotation_ids) :
    ((s2.search_annotations be2 p2
        ((s1.search_annotations be1 p1 g0).2.2)).1).annotation_ids_map
      = MapRef.globalMap
    ∧ (MapRef.deref
        ((s2.search_annotations be2 p2
          ((s1.search_annotations be1 p1 g0).2.2)).2.2)
        ((s2.search_annotations be2 p2
          ((s1.search_annotations be1 p1 g0).2.2)).1).annotation_ids_map).get? k
      = some v := by
  refine ⟨rfl, ?_⟩
  simp only [Search.search_annotations, MapRef.deref] at h1 h2 ⊢
  rw [recordHits_get?_of_not_mem _ _ _ h2]
  exact h1

/-- Backends for concrete two-call scenarios: the first returns one hit
`("a", 1)`, the second one hit `("b", 2)`. -/
def cexBackend1 : Backend := fun _ => ⟨1, [⟨"a", 1⟩], none⟩

def cexBackend2 : Backend := fun _ => ⟨1, [⟨"b", 2⟩], none⟩

def cexSearch : Search := Search.init ⟨[], []⟩ false

/-- Witness for C2 at a concrete two-call scenario. -/
theorem search_annotations_global_map_shared_witness :
    (((cexSearch.search_annotations cexBackend1 [] GState.empty).2.2).annotation_ids_map.get? "a"
      = some 1)
    ∧ ("a" ∉ ((cexSearch.search_annotations cexBackend2 []
        ((cexSearch.search_annotations cexBackend1 [] GState.empty).2.2)).1).annotation_ids)
    ∧ (((cexSearch.search_annotations cexBackend2 []
          ((cexSearch.search_annotations cexBackend1 [] GState.empty).2.2)).1).annotation_ids_map
        = MapRef.globalMap
      ∧ (MapRef.deref
          ((cexSearch.search_annotations cexBackend2 []
            ((cexSearch.search_annotations cexBackend1 [] GState.empty).2.2)).2.2)
          ((cexSearch.search_annotations cexBackend2 []
            ((cexSearch.search_annotations cexBackend1 [] GState.empty).2.2)).1).annotation_ids_map).get? "a"
        = some 1) :=
  ⟨by decide, by decide,
    search_annotations_global_map_shared cexSearch cexSearch cexBackend1
      cexBackend2 [] [] GState.empty "a" 1 (by decide) (by decide)⟩

/-- C3 counterexample: the `SearchResult` of a first `run` is not insulated
from later calls — the dict its `annotation_ids_map` field points to has
different contents after a second `run` records new hits. -/
theorem searchresult_map_mutated_counterexample :
    MapRef.deref (cexSearch.run cexBackend1 [] GState.empty).2.2
        (cexSearch.run cexBackend1 [] GState.empty).1.annotation_ids_map
      ≠ MapRef.deref
        (((cexSearch.run cexBackend1 [] GState.empty).2.1).run cexBackend2 []
          (cexSearch.run cexBackend1 [] GState.empty).2.2).2.2
        (cexSearch.run cexBackend1 [] GState.empty).1.annotation_ids_map := by
  decide

/-- C3 amended: every `SearchResult` returned by `run` stores, in its
`annotation_ids_map` field, a reference to the shared module-level dict; so
the map seen through any previously returned result always equals the
current global map, which later calls mutate. -/
theorem searchresult_map_aliases_global (s : Search) (be : Backend)
    (p : Params) (g g' : GState) :
    ((s.run be p g).1).annotation_ids_map = MapRef.globalMap
    ∧ MapRef.deref g' ((s.run be p g).1).annotation_ids_map
      = g'.annotation_ids_map := by
  exact ⟨rfl, rfl⟩

/-- Search object configured to separate replies, with an empty registry. -/
def cexSearchSep : Search := Search.init ⟨[], []⟩ true

/-- C4: when separating replies, `search_replies` issues exactly one backend
call, whose body is built from the reply builder with params
`{'limit': 200}` and carries a `RepliesMatcher` over the annotation ids of
the first search; the reply list is the returned (possibly truncated) page,
and the truncation warning is logged exactly when the page is shorter than
the reported total.  No second (retry or pagination) call occurs. -/
theorem search_replies_limit_and_truncation (s : Search) (be : Backend)
    (ids : List String) (g : GState) (h : s.separate_replies = true) :
    (s.search_replies be ids g).2.2.backendCalls
      = g.backendCalls
        ++ [(s.reply_builder.append_matcher
              (Matcher.RepliesMatcher ids)).build [("limit", 200)]]
    ∧ ((s.reply_builder.append_matcher
          (Matcher.RepliesMatcher ids)).build [("limit", 200)]).params
      = [("limit", 200)]
    ∧ Matcher.RepliesMatcher ids
        ∈ ((s.reply_builder.append_matcher
            (Matcher.RepliesMatcher ids)).build [("limit", 200)]).matchers
    ∧ (s.search_replies be ids g).1
      = (be ((s.reply_builder.append_matcher
          (Matcher.RepliesMatcher ids)).build [("limit", 200)])).hits.map
          (fun x => x._id)
    ∧ (s.search_replies be ids g).2.2.log
      = (if (be ((s.reply_builder.append_matcher
            (Matcher.RepliesMatcher ids)).build [("limit", 200)])).hits.length
            < (be ((s.reply_builder.append_matcher
                (Matcher.RepliesMatcher ids)).build [("limit", 200)])).total
        then g.log ++ [LogMsg.replyTruncationWarning]
        else g.log) := by
  refine ⟨?_, rfl, ?_, ?_, ?_⟩
  · simp only [Search.search_replies, h, Bool.true_eq_false, if_false]
    split <;> rfl
  · simp [Builder.build, Builder.append_matcher]
  · simp only [Search.search_replies, h, Bool.true_eq_false, if_false]
  · simp only [Search.search_replies, h, Bool.true_eq_false, if_false]
    split <;> rfl

/-- Witness for C4: one reply search against `cexBackend1` (a 1-of-1 page,
so no warning). -/
theorem search_replies_limit_and_truncation_witness :
    cexSearchSep.separate_replies = true
    ∧ ((cexSearchSep.search_replies cexBackend1 ["a1"] GState.empty).2.2.backendCalls
        = [⟨[QueryFilter.AuthFilter, QueryFilter.UriFilter,
             QueryFilter.GroupFilter, QueryFilter.UserFilter],
            [Matcher.AnyMatcher, Matcher.TagsMatcher,
             Matcher.RepliesMatcher ["a1"]], [], [("limit", 200)]⟩]
      ∧ ((cexSearchSep.reply_builder.append_matcher
            (Matcher.RepliesMatcher ["a1"])).build [("limit", 200)]).params
          = [("limit", 200)]
      ∧ Matcher.RepliesMatcher ["a1"]
          ∈ ((cexSearchSep.reply_builder.append_matcher
              (Matcher.RepliesMatcher ["a1"])).build [("limit", 200)]).matchers
      ∧ (cexSearchSep.search_replies cexBackend1 ["a1"] GState.empty).1 = ["a"]
      ∧ (cexSearchSep.search_replies cexBackend1 ["a1"] GState.empty).2.2.log
          = []) :=
  ⟨rfl, search_replies_limit_and_truncation cexSearchSep cexBackend1 ["a1"]
    GState.empty rfl⟩

/-- Occurrences of the top-level-only filter in a filter list. -/
def countTopLevel (fs : List QueryFilter) : Nat :=
  fs.count QueryFilter.TopLevelAnnotationsFilter

/-- Effect of one `run` on the `Search` object itself: the flag is
untouched, the annotation builder gains exactly one top-level filter when
separating replies (and nothing otherwise), and its aggregations are
untouched. -/
theorem run_state_effect (s : Search) (be : Backend) (p : Params)
    (g : GState) :
    ((s.run be p g).2.1).separate_replies = s.separate_replies
    ∧ ((s.run be p g).2.1).builder.filters
      = (if s.separate_replies then
          s.builder.filters ++ [QueryFilter.TopLevelAnnotationsFilter]
        else s.builder.filters)
    ∧ ((s.run be p g).2.1).builder.aggregations = s.builder.aggregations := by
  cases hsep : s.separate_replies <;>
    simp [Search.run, Search.search_annotations, Search.search_replies,
      Builder.append_filter, hsep]

/-- Iterate `run` with a fixed backend and params, threading the `Search`
object and the global state. -/
def runIter (be : Backend) (p : Params) : Nat → Search × GState → Search × GState
  | 0, sg => sg
  | n + 1, sg =>
      runIter be p n ((sg.1.run be p sg.2).2.1, (sg.1.run be p sg.2).2.2)

/-- Each iterated `run` on a reply-separating `Search` adds exactly one
top-level filter to the annotation builder. -/
theorem runIter_count_toplevel (be : Backend) (p : Params) (n : Nat) :
    ∀ s : Search, ∀ g : GState, s.separate_replies = true →
      countTopLevel ((runIter be p n (s, g)).1.builder.filters)
        = countTopLevel s.builder.filters + n := by
  induction n with
  | zero => intro s g _; simp [runIter]
  | succ n ih =>
    intro s g hs
    have h := run_state_effect s be p g
    rw [runIter, ih _ _ (h.1.trans hs), h.2.1, if_pos hs]
    simp [countTopLevel, List.count_append]
    omega

/-- C5: starting from a freshly constructed reply-separating orchestrator,
`n` calls to `run` leave exactly `n` copies of the top-level-only filter in
the annotation builder (each call appends one more); on an orchestrator not
separating replies, `run` leaves the annotation filter list untouched. -/
theorem run_appends_toplevel_filter_each_call
    (r : Request) (be : Backend) (p : Params) (g : GState) (n : Nat)
    (s : Search) (hs : s.separate_replies = false)
    (hreg : QueryFilter.TopLevelAnnotationsFilter ∉ r.registry_filters) :
    countTopLevel
        ((runIter be p n (Search.init r true, g)).1.builder.filters) = n
    ∧ ((s.run be p g).2.1).builder.filters = s.builder.filters := by
  constructor
  · rw [runIter_count_toplevel be p n _ g rfl]
    simp [countTopLevel, Search.init, default_querybuilder,
      List.count_append, List.count_eq_zero, hreg]
  · have h := run_state_effect s be p g
    rw [h.2.1, if_neg]
    simp [hs]

/-- Witness for C5: two runs from a fresh orchestrator leave two top-level
filters; one run on a non-separating orchestrator appends none. -/
theorem run_appends_toplevel_filter_each_call_witness :
    cexSearch.separate_replies = false
    ∧ QueryFilter.TopLevelAnnotationsFilter
        ∉ (Request.mk [] []).registry_filters
    ∧ (countTopLevel
        ((runIter cexBackend1 [] 2
          (Search.init ⟨[], []⟩ true, GState.empty)).1.builder.filters) = 2
      ∧ ((cexSearch.run cexBackend1 [] GState.empty).2.1).builder.filters
          = cexSearch.builder.filters) :=
  ⟨rfl, by decide,
    run_appends_toplevel_filter_each_call ⟨[], []⟩ cexBackend1 [] GState.empty
      2 cexSearch rfl (by decide)⟩

/-- Lookup in the parsed-aggregation dict when the first matching component
exists and the bucket is present. -/
theorem parseAggLoop_get?_of_find (comps : List Aggregation) (key : String)
    (a : Aggregation) (buckets : List (String × Int)) (raw : Int)
    (hfind : findAgg comps key = some a)
    (hraw : ScoreMap.get? buckets key = some raw) :
    ScoreMap.get? (parseAggLoop comps buckets) key
      = some (a.parse_result raw) := by
  induction buckets with
  | nil => simp [ScoreMap.get?] at hraw
  | cons hd tl ih =>
    obtain ⟨k0, r0⟩ := hd
    by_cases hk : k0 = key
    · subst hk
      have hraw' : r0 = raw := by simpa [ScoreMap.get?] using hraw
      subst hraw'
      simp [parseAggLoop, hfind, ScoreMap.get?]
    · have hraw' : ScoreMap.get? tl key = some raw := by
        simpa [ScoreMap.get?, hk] using hraw
      cases hfa : findAgg comps k0 with
      | none => simpa [parseAggLoop, hfa] using ih hraw'
      | some a' => simpa [parseAggLoop, hfa, ScoreMap.get?, hk] using ih hraw'

/-- Buckets with no matching aggregation component never reach the parsed
dict. -/
theorem parseAggLoop_get?_of_none (comps : List Aggregation) (key : String)
    (buckets : List (String × Int))
    (hfind : findAgg comps key = none) :
    ScoreMap.get? (parseAggLoop comps buckets) key = none := by
  induction buckets with
  | nil => rfl
  | cons hd tl ih =>
    obtain ⟨k0, r0⟩ := hd
    rw [parseAggLoop]
    cases hfa : findAgg comps k0 with
    | none => exact ih
    | some a =>
      have hne : k0 ≠ key := by
        intro hcontra
        rw [hcontra, hfind] at hfa
        cases hfa
      simp [ScoreMap.get?, hne, ih]

/-- Aggregations of a `run` result are exactly the parse of the annotation
response's aggregation object against the appended components. -/
theorem run_result_aggregations (s : Search) (resp : SearchResponse)
    (p : Params) (g : GState) :
    ((s.run (fun _ => resp) p g).1).aggregations
      = parseAggregationResults s.builder.aggregations resp.aggregations := by
  cases hsep : s.separate_replies <;>
    simp [Search.run, Search.search_annotations, Search.search_replies,
      Builder.append_filter, hsep]

/-- C6: the aggregations of a `SearchResult` are obtained by dispatching
each named bucket of the annotation response to the `parse_result` of the
first appended component with that key; unmatched buckets are absent, and a
missing or empty aggregations object yields the empty mapping. -/
theorem run_aggregations_dispatch
    (s : Search) (resp respNone respEmpty : SearchResponse) (p : Params)
    (g : GState) (key key2 : String) (raw : Int) (a : Aggregation)
    (buckets : List (String × Int))
    (hsome : resp.aggregations = some buckets)
    (hfound : findAgg s.builder.aggregations key = some a)
    (hraw : ScoreMap.get? buckets key = some raw)
    (hmiss : findAgg s.builder.aggregations key2 = none)
    (hnone : respNone.aggregations = none)
    (hempty : respEmpty.aggregations = some []) :
    ((s.run (fun _ => resp) p g).1).aggregations
      = parseAggregationResults s.builder.aggregations resp.aggregations
    ∧ ScoreMap.get? ((s.run (fun _ => resp) p g).1).aggregations key
      = some (a.parse_result raw)
    ∧ ScoreMap.get? ((s.run (fun _ => resp) p g).1).aggregations key2 = none
    ∧ ((s.run (fun _ => respNone) p g).1).aggregations = []
    ∧ ((s.run (fun _ => respEmpty) p g).1).aggregations = [] := by
  refine ⟨run_result_aggregations s resp p g, ?_, ?_, ?_, ?_⟩
  · rw [run_result_aggregations, hsome]
    exact parseAggLoop_get?_of_find _ _ _ _ _ hfound hraw
  · rw [run_result_aggregations, hsome]
    exact parseAggLoop_get?_of_none _ _ _ hmiss
  · rw [run_result_aggregations, hnone]
    rfl
  · rw [run_result_aggregations, hempty]
    rfl

/-- Concrete aggregation component, orchestrator and responses for the C6
witness. -/
def aggUsers : Aggregation := ⟨"users", fun x => x + 100⟩

def aggSearch : Search := (Search.init ⟨[], []⟩ false).append_aggregation aggUsers

def aggResp : SearchResponse := ⟨0, [], some [("users", 5), ("orphan", 9)]⟩

def aggRespNone : SearchResponse := ⟨0, [], none⟩

def aggRespEmpty : SearchResponse := ⟨0, [], some []⟩

/-- Witness for C6 at a concrete component/response pair. -/
theorem run_aggregations_dispatch_witness :
    aggResp.aggregations = some [("users", 5), ("orphan", 9)]
    ∧ findAgg aggSearch.builder.aggregations "users" = some aggUsers
    ∧ ScoreMap.get? [("users", 5), ("orphan", 9)] "users" = some 5
    ∧ findAgg aggSearch.builder.aggregations "zz" = none
    ∧ aggRespNone.aggregations = none
    ∧ aggRespEmpty.aggregations = some []
    ∧ (((aggSearch.run (fun _ => aggResp) [] GState.empty).1).aggregations
        = [("users", 105)]
      ∧ ScoreMap.get?
          ((aggSearch.run (fun _ => aggResp) [] GState.empty).1).aggregations
          "users" = some 105
      ∧ ScoreMap.get?
          ((aggSearch.run (fun _ => aggResp) [] GState.empty).1).aggregations
          "zz" = none
      ∧ ((aggSearch.run (fun _ => aggRespNone) [] GState.empty).1).aggregations
        = []
      ∧ ((aggSearch.run (fun _ => aggRespEmpty) [] GState.empty).1).aggregations
        = []) :=
  ⟨rfl, rfl, rfl, rfl, rfl, rfl,
    run_aggregations_dispatch aggSearch aggResp aggRespNone aggRespEmpty []
      GState.empty "users" "zz" 5 aggUsers [("users", 5), ("orphan", 9)]
      rfl rfl rfl rfl rfl rfl⟩

/-- User record, identified by a numeric id; all a claim needs is identity. -/
structure User where
  id : Nat
deriving DecidableEq, Repr

/-- Python `userid in cache` on the cache dict of `UserService`. -/
def cacheHasKey : List (String × Option User) → String → Bool
  | [], _ => false
  | (k, _) :: rest, u => if k = u then true else cacheHasKey rest u

/-- Python dict read `cache[userid]`; `none` when the key is absent. -/
def cacheGet? : List (String × Option User) → String → Option (Option User)
  | [], _ => none
  | (k, v) :: rest, u => if k = u then some v else cacheGet? rest u

/-- Python dict assignment `cache[userid] = value`. -/
def cacheInsert : List (String × Option User) → String → Option User →
    List (String × Option User)
  | [], k, v => [(k, v)]
  | (k', v') :: rest, k, v =>
      if k' = k then (k, v) :: rest
      else (k', v') :: cacheInsert rest k v

/-- Embedding of `UserService`: the session's one-or-none query result per
userid (fixed between transaction boundaries), and the local `_cache` dict
of fetched users. -/
structure UserService where
  db : String → Option User
  _cache : List (String × Option User)

/-- Embedding of `UserService.fetch`: query the store only when the userid
is not cached, cache the (possibly `None`) result, and return the cache
entry.  The third component counts the queries issued by this call. -/
def UserService.fetch (svc : UserService) (userid : String) :
    Option User × UserService × Nat :=
  if cacheHasKey svc._cache userid then
    ((cacheGet? svc._cache userid).getD none, svc, 0)
  else
    let c := cacheInsert svc._cache userid (svc.db userid)
    ((cacheGet? c userid).getD none, { svc with _cache := c }, 1)

/-- Embedding of the `flush_cache` listener registered in
`UserService.__init__`: `self._cache = {}`. -/
def UserService.flush_cache (svc : UserService) : UserService :=
  { svc with _cache := [] }

/-- Firing of the `after_commit` session event. -/
def UserService.after_commit (svc : UserService) : UserService :=
  svc.flush_cache

/-- Firing of the `after_rollback` session event. -/
def UserService.after_rollback (svc : UserService) : UserService :=
  svc.flush_cache

/-- Freshly assigned keys are present in the cache dict. -/
theorem cacheHasKey_insert_self (c : List (String × Option User)) (k : String)
    (v : Option User) : cacheHasKey (cacheInsert c k v) k = true := by
  induction c with
  | nil => simp [cacheInsert, cacheHasKey]
  | cons hd tl ih =>
    obtain ⟨k0, v0⟩ := hd
    by_cases hk : k0 = k <;> simp [cacheInsert, cacheHasKey, hk, ih]

/-- Reading back a freshly assigned key yields the assigned value. -/
theorem cacheGet?_insert_self (c : List (String × Option User)) (k : String)
    (v : Option User) : cacheGet? (cacheInsert c k v) k = some v := by
  induction c with
  | nil => simp [cacheInsert, cacheGet?]
  | cons hd tl ih =>
    obtain ⟨k0, v0⟩ := hd
    by_cases hk : k0 = k <;> simp [cacheInsert, cacheGet?, hk, ih]

/-- C10: between transaction boundaries two fetches of the same userid
return the same result with at most one underlying query in total (the
second is served from the cache and leaves the service untouched); a commit
or rollback empties the cache, and the next fetch issues a query again,
returning the store's current answer. -/
theorem user_service_fetch_cache (svc : UserService) (userid : String) :
    ((svc.fetch userid).2.1.fetch userid).1 = (svc.fetch userid).1
    ∧ ((svc.fetch userid).2.1.fetch userid).2.2 = 0
    ∧ (svc.fetch userid).2.2 + ((svc.fetch userid).2.1.fetch userid).2.2 ≤ 1
    ∧ ((svc.fetch userid).2.1.fetch userid).2.1 = (svc.fetch userid).2.1
    ∧ (svc.fetch userid).2.1.after_commit._cache = []
    ∧ (svc.fetch userid).2.1.after_rollback._cache = []
    ∧ ((svc.fetch userid).2.1.after_commit.fetch userid).2.2 = 1
    ∧ ((svc.fetch userid).2.1.after_commit.fetch userid).1 = svc.db userid
    ∧ ((svc.fetch userid).2.1.after_rollback.fetch userid).2.2 = 1 := by
  by_cases h : cacheHasKey svc._cache userid = true
  · simp [UserService.fetch, h, UserService.after_commit,
      UserService.after_rollback, UserService.flush_cache, cacheHasKey,
      cacheGet?_insert_self, cacheInsert, cacheGet?]
  · simp only [Bool.not_eq_true] at h
    simp [UserService.fetch, h, cacheHasKey_insert_self,
      cacheGet?_insert_self, UserService.after_commit,
      UserService.after_rollback, UserService.flush_cache, cacheHasKey,
      cacheInsert, cacheGet?]

/-- Outcome of the storage layer's `flush()` at the end of a write path:
either success or a uniqueness/integrity violation (SQLAlchemy
`IntegrityError`). -/
inductive FlushOutcome where
  | ok
  | integrityError
deriving DecidableEq, Repr

/-- Modelled from the spec: the distinct retryable error kind
(`transaction.interfaces.TransientError` in the tests) into which the store
translates a flush-time integrity violation. -/
inductive StoreError where
  | transient
deriving DecidableEq, Repr

/-- Modelled from the spec: a `Document` row — identifier, denormalized
`web_uri` and `title` (first non-empty value wins, immutable once set), and
timestamps. -/
structure Document where
  id : Nat
  web_uri : Option String
  title : Option String
  created : Nat
  updated : Nat
deriving DecidableEq, Repr

/-- Modelled from the spec: a `DocumentURI` claim row; `type` and
`content_type` are stored coerced (never null) and `document` is the owning
Document's id. -/
structure DocumentURI where
  id : Nat
  claimant : String
  uri : String
  type : String
  content_type : String
  document : Nat
  created : Nat
  updated : Nat
deriving DecidableEq, Repr

/-- Modelled from the spec: a `DocumentMeta` claim row; `value` is an
ordered sequence of strings and `document` is the owning Document's id. -/
structure DocumentMeta where
  id : Nat
  claimant : String
  type : String
  value : List String
  document : Nat
  created : Nat
  updated : Nat
deriving DecidableEq, Repr

/-- Modelled from the spec: the document store's visible state — the three
tables, a fresh-id counter, and a count of data-inconsistency warnings
logged so far. -/
structure Store where
  documents : List Document
  document_uris : List DocumentURI
  metas : List DocumentMeta
  nextId : Nat
  warnings : Nat
deriving DecidableEq, Repr

/-- Apply an update to the document with the given id, in place. -/
def Store.updateDocument (s : Store) (docId : Nat) (f : Document → Document) :
    Store :=
  { s with documents := s.documents.map (fun d =>
      if d.id = docId then f d else d) }

/-- Modelled from the spec: denormalization of `web_uri` — set it to `uri`
when it is unset (null or empty) and `uri` is an http(s) URI; never
overwrite. -/
def denormalizeWebUri (d : Document) (uri : String) : Document :=
  if (d.web_uri.getD "" == "")
      && (uri.startsWith "http://" || uri.startsWith "https://")
  then { d with web_uri := some uri } else d

/-- Modelled from the spec: denormalization of `title` — when the claim type
is `title` and the document's title is unset, take the first element of the
value sequence; never overwrite. -/
def denormalizeTitle (d : Document) (value : List String) : Document :=
  if d.title.getD "" == "" then
    match value with
    | v :: _ => { d with title := some v }
    | [] => d
  else d

/-- Mutate the first row satisfying the predicate, in place (the SQLAlchemy
pattern of mutating the ORM object returned by a lookup). -/
def replaceFirst {α : Type} (pred : α → Bool) (f : α → α) : List α → List α
  | [] => []
  | x :: rest => if pred x then f x :: rest else x :: replaceFirst pred f rest

/-- Lookup predicate for the (claimant, uri, type, content_type) uniqueness
key of `DocumentURI`. -/
def uriKeyPred (claimant uri t ct : String) (du : DocumentURI) : Bool :=
  du.claimant == claimant && du.uri == uri && du.type == t
    && du.content_type == ct

/-- Lookup predicate for the (claimant, type) key of `DocumentMeta`. -/
def metaKeyPred (claimant t : String) (m : DocumentMeta) : Bool :=
  m.claimant == claimant && m.type == t

/-- Modelled from the spec: state effect of `create_or_update_document_uri`.
`type`/`content_type` of `None` are coerced to the empty string before the
lookup key and before storage; a found row gets the new `updated` (created
and ownership untouched, a warning counted on ownership mismatch); otherwise
a fresh row is created; finally `web_uri` is denormalized onto the given
document. -/
def create_or_update_document_uri_store (s : Store) (claimant uri : String)
    (ty ct : Option String) (document created updated : Nat) : Store :=
  let t := ty.getD ""
  let ct' := ct.getD ""
  let pred := uriKeyPred claimant uri t ct'
  let s1 :=
    match s.document_uris.find? pred with
    | some du =>
        { s with
          document_uris := replaceFirst pred
            (fun x => { x with updated := updated }) s.document_uris,
          warnings := s.warnings + (if du.document = document then 0 else 1) }
    | none =>
        { s with
          document_uris := s.document_uris
            ++ [(⟨s.nextId, claimant, uri, t, ct', document, created, updated⟩ : DocumentURI)],
          nextId := s.nextId + 1 }
  s1.updateDocument document (fun d => denormalizeWebUri d uri)

/-- Modelled from the spec: `create_or_update_document_uri`, translating a
flush-time integrity violation into the retryable error kind. -/
def create_or_update_document_uri (s : Store) (claimant uri : String)
    (ty ct : Option String) (document created updated : Nat)
    (flush : FlushOutcome) : Except StoreError Store :=
  match flush with
  | .ok => .ok (create_or_update_document_uri_store s claimant uri ty ct
      document created updated)
  | .integrityError => .error .transient

/-- Modelled from the spec: state effect of `create_or_update_document_meta`.
Lookup is by (claimant, type) only; a found row gets new `value`/`updated`
(created and ownership untouched, warning on mismatch); otherwise a fresh
row; then `title` is denormalized when the type is `title`. -/
def create_or_update_document_meta_store (s : Store) (claimant t : String)
    (value : List String) (document created updated : Nat) : Store :=
  let pred := metaKeyPred claimant t
  let s1 :=
    match s.metas.find? pred with
    | some m =>
        { s with
          metas := replaceFirst pred
            (fun x => { x with value := value, updated := updated }) s.metas,
          warnings := s.warnings + (if m.document = document then 0 else 1) }
    | none =>
        { s with
          metas := s.metas
            ++ [(⟨s.nextId, claimant, t, value, document, created, updated⟩ : DocumentMeta)],
          nextId := s.nextId + 1 }
  if t = "title" then
    s1.updateDocument document (fun d => denormalizeTitle d value)
  else s1

/-- Modelled from the spec: `create_or_update_document_meta` with the same
retryable-error contract. -/
def create_or_update_document_meta (s : Store) (claimant t : String)
    (value : List String) (document created updated : Nat)
    (flush : FlushOutcome) : Except StoreError Store :=
  match flush with
  | .ok => .ok (create_or_update_document_meta_store s claimant t value
      document created updated)
  | .integrityError => .error .transient

/-- Modelled from the spec: `find_by_uris` — documents having at least one
`DocumentURI` whose uri is in the candidate set (exact string match). -/
def find_by_uris (s : Store) (uris : List String) : List Document :=
  s.documents.filter (fun d => s.document_uris.any (fun du =>
    du.document == d.id && uris.contains du.uri))

/-- Modelled from the spec: `find_or_create_by_uris` — return existing
matches when any exist (possibly several, signalling duplicates); otherwise
create one Document with one `self-claim` DocumentURI for the target uri,
translating a flush conflict into the retryable error. -/
def find_or_create_by_uris (s : Store) (target_uri : String)
    (other_uris : List String) (created updated : Nat)
    (flush : FlushOutcome) : Except StoreError (List Document × Store) :=
  match find_by_uris s (target_uri :: other_uris) with
  | [] =>
      let doc : Document := ⟨s.nextId, none, none, created, updated⟩
      let du : DocumentURI := ⟨s.nextId + 1, target_uri, target_uri,
        "self-claim", "", s.nextId, created, updated⟩
      let s1 := { s with documents := s.documents ++ [doc],
                         document_uris := s.document_uris ++ [du],
                         nextId := s.nextId + 2 }
      match flush with
      | .ok => .ok ([doc], s1)
      | .integrityError => .error .transient
  | d :: ds => .ok (d :: ds, s)

/-- Reassign every URI and Meta row owned by one duplicate to the master,
then delete the duplicate document. -/
def mergeOne (s : Store) (masterId dupId : Nat) : Store :=
  { s with
    document_uris := s.document_uris.map (fun du =>
      if du.document = dupId then { du with document := masterId } else du),
    metas := s.metas.map (fun m =>
      if m.document = dupId then { m with document := masterId } else m),
    documents := s.documents.filter (fun d => d.id ≠ dupId) }

/-- Process the duplicates in input order. -/
def mergeFold (s : Store) (masterId : Nat) (dups : List Nat) : Store :=
  dups.foldl (fun acc d => mergeOne acc masterId d) s

/-- Store state after a merge: all duplicates folded into the master, whose
`updated` is stamped when a timestamp was passed. -/
def mergeResultStore (s : Store) (masterId : Nat) (dups : List Nat)
    (updated : Option Nat) : Store :=
  let s1 := mergeFold s masterId dups
  match updated with
  | some uu => s1.updateDocument masterId (fun d => { d with updated := uu })
  | none => s1

/-- Modelled from the spec: `merge_documents(document_list)` — the first
element is the surviving master, every other document's URI and Meta rows
are reassigned to it and the duplicate destroyed; a flush conflict becomes
the retryable error.  An empty list has no defined result (the reference
code would fail indexing `documents[0]`). -/
def merge_documents (s : Store) (docs : List Nat) (updated : Option Nat)
    (flush : FlushOutcome) : Option (Except StoreError (Nat × Store)) :=
  match docs with
  | [] => none
  | masterId :: dups =>
      some (match flush with
        | .ok => .ok (masterId, mergeResultStore s masterId dups updated)
        | .integrityError => .error .transient)

/-- Unfolding of one merge step. -/
theorem mergeFold_cons (s : Store) (m d : Nat) (ds : List Nat) :
    mergeFold s m (d :: ds) = mergeFold (mergeOne s m d) m ds := rfl

/-- After folding all duplicates, every URI row owned by a duplicate has
been reassigned to the master and all other rows are untouched. -/
theorem mergeFold_uris (m : Nat) :
    ∀ (dups : List Nat) (s : Store), m ∉ dups →
      (mergeFold s m dups).document_uris
        = s.document_uris.map (fun du =>
            if du.document ∈ dups then { du with document := m } else du) := by
  intro dups
  induction dups with
  | nil =>
    intro s _
    simp [mergeFold]
  | cons d ds ih =>
    intro s hm
    simp only [List.mem_cons, not_or] at hm
    rw [mergeFold_cons, ih _ hm.2]
    show (mergeOne s m d).document_uris.map _ = _
    simp only [mergeOne, List.map_map]
    refine List.map_congr_left ?_
    intro du _
    by_cases hd : du.document = d
    · simp only [Function.comp_apply, if_pos hd, List.mem_cons]
      rw [if_neg hm.2, if_pos (Or.inl hd)]
    · simp only [Function.comp_apply, if_neg hd, List.mem_cons]
      by_cases hds : du.document ∈ ds
      · rw [if_pos hds, if_pos (Or.inr hds)]
      · rw [if_neg hds, if_neg (by push_neg; exact ⟨hd, hds⟩)]

/-- Counterpart of the previous lemma for the Meta rows. -/
theorem mergeFold_metas (m : Nat) :
    ∀ (dups : List Nat) (s : Store), m ∉ dups →
      (mergeFold s m dups).metas
        = s.metas.map (fun mt =>
            if mt.document ∈ dups then { mt with document := m } else mt) := by
  intro dups
  induction dups with
  | nil =>
    intro s _
    simp [mergeFold]
  | cons d ds ih =>
    intro s hm
    simp only [List.mem_cons, not_or] at hm
    rw [mergeFold_cons, ih _ hm.2]
    show (mergeOne s m d).metas.map _ = _
    simp only [mergeOne, List.map_map]
    refine List.map_congr_left ?_
    intro mt _
    by_cases hd : mt.document = d
    · simp only [Function.comp_apply, if_pos hd, List.mem_cons]
      rw [if_neg hm.2, if_pos (Or.inl hd)]
    · simp only [Function.comp_apply, if_neg hd, List.mem_cons]
      by_cases hds : mt.document ∈ ds
      · rw [if_pos hds, if_pos (Or.inr hds)]
      · rw [if_neg hds, if_neg (by push_neg; exact ⟨hd, hds⟩)]

/-- Documents surviving the fold are exactly the documents outside the
duplicate list. -/
theorem mergeFold_documents_mem (m : Nat) :
    ∀ (dups : List Nat) (s : Store) (doc : Document),
      doc ∈ (mergeFold s m dups).documents
        ↔ doc ∈ s.documents ∧ doc.id ∉ dups := by
  intro dups
  induction dups with
  | nil =>
    intro s doc
    simp [mergeFold]
  | cons d ds ih =>
    intro s doc
    rw [mergeFold_cons, ih]
    simp only [mergeOne, List.mem_filter, List.mem_cons, not_or,
      decide_not, Bool.not_eq_true', decide_eq_false_iff_not]
    tauto

/-- C7: merging a list of two or more (distinct) documents keeps the first
element as the sole survivor: the call returns it, every URI and Meta row
owned by one of the other documents is reassigned to it in place (all other
rows untouched, none copied), each other document is gone from the store,
and documents outside the list survive. -/
theorem merge_documents_spec (s : Store) (m : Nat) (rest : List Nat)
    (u : Option Nat) (_hrest : rest ≠ []) (hm : m ∉ rest) :
    merge_documents s (m :: rest) u FlushOutcome.ok
      = some (Except.ok (m, mergeResultStore s m rest u))
    ∧ (mergeResultStore s m rest u).document_uris
      = s.document_uris.map (fun du =>
          if du.document ∈ rest then { du with document := m } else du)
    ∧ (mergeResultStore s m rest u).metas
      = s.metas.map (fun mt =>
          if mt.document ∈ rest then { mt with document := m } else mt)
    ∧ (∀ d ∈ rest, ∀ doc ∈ (mergeResultStore s m rest u).documents,
        doc.id ≠ d)
    ∧ (∀ doc ∈ s.documents, doc.id ∉ rest →
        doc.id ∈ (mergeResultStore s m rest u).documents.map
          (fun x => x.id)) := by
  have hids : ∀ (uu : Nat) (x : Document),
      ((if x.id = m then { x with updated := uu } else x) : Document).id
        = x.id := by
    intro uu x
    split <;> rfl
  refine ⟨rfl, ?_, ?_, ?_, ?_⟩
  · cases u with
    | none => exact mergeFold_uris m rest s hm
    | some uu => exact mergeFold_uris m rest s hm
  · cases u with
    | none => exact mergeFold_metas m rest s hm
    | some uu => exact mergeFold_metas m rest s hm
  · intro d hd doc hdoc
    cases u with
    | none =>
      have h := (mergeFold_documents_mem m rest s doc).mp hdoc
      intro he
      exact h.2 (by rw [he]; exact hd)
    | some uu =>
      simp only [mergeResultStore, Store.updateDocument, List.mem_map] at hdoc
      obtain ⟨x, hx, rfl⟩ := hdoc
      have h := (mergeFold_documents_mem m rest s x).mp hx
      rw [hids uu x]
      intro he
      exact h.2 (by rw [he]; exact hd)
  · intro doc hdoc hnr
    cases u with
    | none =>
      exact List.mem_map.mpr
        ⟨doc, (mergeFold_documents_mem m rest s doc).mpr ⟨hdoc, hnr⟩, rfl⟩
    | some uu =>
      refine List.mem_map.mpr
        ⟨(if doc.id = m then { doc with updated := uu } else doc), ?_,
          hids uu doc⟩
      simp only [mergeResultStore, Store.updateDocument]
      exact List.mem_map.mpr
        ⟨doc, (mergeFold_documents_mem m rest s doc).mpr ⟨hdoc, hnr⟩, rfl⟩

/-- Concrete store for the merge witness: the test fixture's master (id 1)
and duplicate (id 2), each owning one URI row and one Meta row. -/
def wStore : Store :=
  { documents := [⟨1, none, none, 0, 0⟩, ⟨2, none, none, 0, 0⟩],
    document_uris :=
      [⟨10, "https://en.wikipedia.org/wiki/Main_Page",
        "https://en.wikipedia.org/wiki/Main_Page", "self-claim", "", 1, 0, 0⟩,
       ⟨11, "https://m.en.wikipedia.org/wiki/Main_Page",
        "https://en.wikipedia.org/wiki/Main_Page", "rel-canonical", "", 2, 0, 0⟩],
    metas :=
      [⟨20, "https://en.wikipedia.org/wiki/Main_Page", "title", ["W"], 1, 0, 0⟩,
       ⟨21, "https://m.en.wikipedia.org/wiki/Main_Page", "title", ["W"], 2, 0, 0⟩],
    nextId := 30,
    warnings := 0 }

/-- Witness for C7 on the two-document fixture. -/
theorem merge_documents_spec_witness :
    ([2] : List Nat) ≠ []
    ∧ (1 : Nat) ∉ ([2] : List Nat)
    ∧ (merge_documents wStore [1, 2] none FlushOutcome.ok
        = some (Except.ok (1, mergeResultStore wStore 1 [2] none))
      ∧ (mergeResultStore wStore 1 [2] none).document_uris
        = wStore.document_uris.map (fun du =>
            if du.document ∈ [2] then { du with document := 1 } else du)
      ∧ (mergeResultStore wStore 1 [2] none).metas
        = wStore.metas.map (fun mt =>
            if mt.document ∈ [2] then { mt with document := 1 } else mt)
      ∧ (∀ d ∈ [2], ∀ doc ∈ (mergeResultStore wStore 1 [2] none).documents,
          doc.id ≠ d)
      ∧ (∀ doc ∈ wStore.documents, doc.id ∉ [2] →
          doc.id ∈ (mergeResultStore wStore 1 [2] none).documents.map
            (fun x => x.id))) :=
  ⟨by decide, by decide,
    merge_documents_spec wStore 1 [2] none (by decide) (by decide)⟩

/-- The empty document store. -/
def emptyStore : Store := ⟨[], [], [], 0, 0⟩

/-- Searching past a prefix with no match continues in the suffix. -/
theorem find?_append_of_none {α : Type} (p : α → Bool) (l₁ l₂ : List α)
    (h : l₁.find? p = none) : (l₁ ++ l₂).find? p = l₂.find? p := by
  induction l₁ with
  | nil => rfl
  | cons x xs ih =>
    cases hx : p x with
    | true =>
      rw [List.find?_cons_of_pos _ hx] at h
      cases h
    | false =>
      rw [List.find?_cons_of_neg _ (by simp [hx])] at h
      rw [List.cons_append, List.find?_cons_of_neg _ (by simp [hx]), ih h]

/-- Replacing the first match in a list whose only match is the appended
element rewrites just that element. -/
theorem replaceFirst_append_of_none {α : Type} (p : α → Bool) (f : α → α)
    (l : List α) (x : α) (h : ∀ a ∈ l, ¬ p a = true) (hx : p x = true) :
    replaceFirst p f (l ++ [x]) = l ++ [f x] := by
  induction l with
  | nil => simp [replaceFirst, hx]
  | cons y ys ih =>
    have hy := h y (List.mem_cons_self y ys)
    simp only [List.cons_append, replaceFirst, List.append_eq]
    rw [if_neg hy, ih (fun a ha => h a (List.mem_cons_of_mem y ha))]

/-- URI-row table after an upsert that found no existing row: one fresh row
is appended. -/
theorem create_uri_store_uris_of_none (s : Store) (claimant uri : String)
    (ty ct : Option String) (doc c u : Nat)
    (hfind : s.document_uris.find?
      (uriKeyPred claimant uri (ty.getD "") (ct.getD "")) = none) :
    (create_or_update_document_uri_store s claimant uri ty ct doc
        c u).document_uris
      = s.document_uris
        ++ [⟨s.nextId, claimant, uri, ty.getD "", ct.getD "", doc, c, u⟩] := by
  simp [create_or_update_document_uri_store, hfind, Store.updateDocument]

/-- URI-row table after an upsert that found an existing row: the first
matching row gets the new `updated`, nothing is appended. -/
theorem create_uri_store_uris_of_found (s : Store) (claimant uri : String)
    (ty ct : Option String) (doc c u : Nat) (du : DocumentURI)
    (hfind : s.document_uris.find?
      (uriKeyPred claimant uri (ty.getD "") (ct.getD "")) = some du) :
    (create_or_update_document_uri_store s claimant uri ty ct doc
        c u).document_uris
      = replaceFirst (uriKeyPred claimant uri (ty.getD "") (ct.getD ""))
          (fun x => { x with updated := u }) s.document_uris := by
  simp [create_or_update_document_uri_store, hfind, Store.updateDocument]

/-- C8: upserting the same (claimant, uri, type, content_type) key twice —
starting from a store with no row for that key — never creates a second row:
afterwards exactly one row matches the key, and that row keeps the first
call's `created` while carrying the second call's `updated`. -/
theorem create_or_update_document_uri_upsert
    (s0 : Store) (claimant uri : String) (ty ct : Option String)
    (doc c1 u1 c2 u2 : Nat)
    (h0 : s0.document_uris.countP
      (uriKeyPred claimant uri (ty.getD "") (ct.getD "")) = 0) :
    create_or_update_document_uri
        (create_or_update_document_uri_store s0 claimant uri ty ct doc c1 u1)
        claimant uri ty ct doc c2 u2 FlushOutcome.ok
      = Except.ok (create_or_update_document_uri_store
          (create_or_update_document_uri_store s0 claimant uri ty ct doc c1 u1)
          claimant uri ty ct doc c2 u2)
    ∧ (create_or_update_document_uri_store
        (create_or_update_document_uri_store s0 claimant uri ty ct doc c1 u1)
        claimant uri ty ct doc c2 u2).document_uris.countP
          (uriKeyPred claimant uri (ty.getD "") (ct.getD "")) = 1
    ∧ ∀ du ∈ (create_or_update_document_uri_store
        (create_or_update_document_uri_store s0 claimant uri ty ct doc c1 u1)
        claimant uri ty ct doc c2 u2).document_uris,
        uriKeyPred claimant uri (ty.getD "") (ct.getD "") du = true →
        du.created = c1 ∧ du.updated = u2 := by
  have hpred0 : ∀ a ∈ s0.document_uris,
      ¬ uriKeyPred claimant uri (ty.getD "") (ct.getD "") a = true := by
    intro a ha
    exact List.countP_eq_zero.mp h0 a ha
  have hfind0 : s0.document_uris.find?
      (uriKeyPred claimant uri (ty.getD "") (ct.getD "")) = none :=
    List.find?_eq_none.mpr hpred0
  have hpredR : uriKeyPred claimant uri (ty.getD "") (ct.getD "")
      ⟨s0.nextId, claimant, uri, ty.getD "", ct.getD "", doc, c1, u1⟩
        = true := by
    simp [uriKeyPred]
  have hs1 : (create_or_update_document_uri_store s0 claimant uri ty ct doc
      c1 u1).document_uris
        = s0.document_uris
          ++ [⟨s0.nextId, claimant, uri, ty.getD "", ct.getD "", doc, c1,
            u1⟩] :=
    create_uri_store_uris_of_none s0 claimant uri ty ct doc c1 u1 hfind0
  have hfind1 : ((create_or_update_document_uri_store s0 claimant uri ty ct
      doc c1 u1).document_uris).find?
        (uriKeyPred claimant uri (ty.getD "") (ct.getD ""))
      = some ⟨s0.nextId, claimant, uri, ty.getD "", ct.getD "", doc, c1,
          u1⟩ := by
    rw [hs1, find?_append_of_none _ _ _ hfind0,
      List.find?_cons_of_pos _ hpredR]
  have hs2 : (create_or_update_document_uri_store
      (create_or_update_document_uri_store s0 claimant uri ty ct doc c1 u1)
      claimant uri ty ct doc c2 u2).document_uris
        = s0.document_uris
          ++ [⟨s0.nextId, claimant, uri, ty.getD "", ct.getD "", doc, c1,
            u2⟩] := by
    rw [create_uri_store_uris_of_found _ claimant uri ty ct doc c2 u2 _
      hfind1, hs1, replaceFirst_append_of_none _ _ _ _ hpred0 hpredR]
  have hpredR2 : uriKeyPred claimant uri (ty.getD "") (ct.getD "")
      ⟨s0.nextId, claimant, uri, ty.getD "", ct.getD "", doc, c1, u2⟩
        = true := by
    simp [uriKeyPred]
  refine ⟨rfl, ?_, ?_⟩
  · rw [hs2, List.countP_append, h0]
    simp [List.countP_cons, hpredR2]
  · rw [hs2]
    intro du hdu hp
    rcases List.mem_append.mp hdu with hmem | hmem
    · exact absurd hp (hpred0 du hmem)
    · rcases List.mem_singleton.mp hmem with rfl
      exact ⟨rfl, rfl⟩

/-- Witness for C8: two upserts of the same key into an empty store. -/
theorem create_or_update_document_uri_upsert_witness :
    emptyStore.document_uris.countP
      (uriKeyPred "cl" "http://u" "self-claim" "") = 0
    ∧ (create_or_update_document_uri
        (create_or_update_document_uri_store emptyStore "cl" "http://u"
          (some "self-claim") none 5 1 2)
        "cl" "http://u" (some "self-claim") none 5 3 4 FlushOutcome.ok
      = Except.ok (create_or_update_document_uri_store
          (create_or_update_document_uri_store emptyStore "cl" "http://u"
            (some "self-claim") none 5 1 2)
          "cl" "http://u" (some "self-claim") none 5 3 4)
    ∧ (create_or_update_document_uri_store
        (create_or_update_document_uri_store emptyStore "cl" "http://u"
          (some "self-claim") none 5 1 2)
        "cl" "http://u" (some "self-claim") none 5 3 4).document_uris.countP
          (uriKeyPred "cl" "http://u" "self-claim" "") = 1
    ∧ ∀ du ∈ (create_or_update_document_uri_store
        (create_or_update_document_uri_store emptyStore "cl" "http://u"
          (some "self-claim") none 5 1 2)
        "cl" "http://u" (some "self-claim") none 5 3 4).document_uris,
        uriKeyPred "cl" "http://u" "self-claim" "" du = true →
        du.created = 1 ∧ du.updated = 4) :=
  ⟨by decide,
    create_or_update_document_uri_upsert emptyStore "cl" "http://u"
      (some "self-claim") none 5 1 2 3 4 (by decide)⟩

/-- C9: on every write path — find-or-create, URI upsert, Meta upsert and
merge — a flush-time integrity violation surfaces to the immediate caller
as the distinct retryable (transient) error kind, with no internal retry. -/
theorem write_paths_flush_conflict_transient
    (s : Store) (claimant uri target_uri mty : String) (ty ct : Option String)
    (value : List String) (doc c u : Nat) (other_uris : List String)
    (docs : List Nat) (upd : Option Nat)
    (hnomatch : find_by_uris s (target_uri :: other_uris) = [])
    (hdocs : docs ≠ []) :
    find_or_create_by_uris s target_uri other_uris c u
        FlushOutcome.integrityError = Except.error StoreError.transient
    ∧ create_or_update_document_uri s claimant uri ty ct doc c u
        FlushOutcome.integrityError = Except.error StoreError.transient
    ∧ create_or_update_document_meta s claimant mty value doc c u
        FlushOutcome.integrityError = Except.error StoreError.transient
    ∧ merge_documents s docs upd FlushOutcome.integrityError
        = some (Except.error StoreError.transient) := by
  obtain ⟨d, ds, rfl⟩ := List.exists_cons_of_ne_nil hdocs
  exact ⟨by simp [find_or_create_by_uris, hnomatch], rfl, rfl, rfl⟩

/-- Witness for C9 on the empty store. -/
theorem write_paths_flush_conflict_transient_witness :
    find_by_uris emptyStore ["http://t"] = []
    ∧ ([1] : List Nat) ≠ []
    ∧ (find_or_create_by_uris emptyStore "http://t" [] 0 0
        FlushOutcome.integrityError = Except.error StoreError.transient
      ∧ create_or_update_document_uri emptyStore "c" "u" none none 0 0 0
          FlushOutcome.integrityError = Except.error StoreError.transient
      ∧ create_or_update_document_meta emptyStore "c" "title" ["V"] 0 0 0
          FlushOutcome.integrityError = Except.error StoreError.transient
      ∧ merge_documents emptyStore [1] none FlushOutcome.integrityError
          = some (Except.error StoreError.transient)) :=
  ⟨by decide, by decide,
    write_paths_flush_conflict_transient emptyStore "c" "u" "http://t" "title"
      none none ["V"] 0 0 0 [] [1] none (by decide) (by decide)⟩
